import Mathlib

/-!
Shallow embedding of the CC Recommendations engine (client-side tag-based
product recommendations): tag parsing, Jaccard scoring, diversity
filtering, fallback backfill, and the session catalog cache.

Each definition mirrors the corresponding JavaScript function.  Mutable
loops become structural recursion with explicit accumulator state; the
two network fetches (catalog and bestsellers) become explicit parameters
holding the data the fetch would have produced (`none` models a failed
fetch); timestamps are natural-number milliseconds.
-/

namespace CCRecs

/-- CONFIG.CACHE_DURATION (milliseconds, 30 minutes). -/
def CACHE_DURATION : Nat := 1800000

/-- CONFIG.RAIL_SIZE. -/
def RAIL_SIZE : Nat := 6

/-- CONFIG.DIVERSITY.max_per_interest. -/
def max_per_interest : Nat := 2

/-- CONFIG.DIVERSITY.max_per_style. -/
def max_per_style : Nat := 2

/-- CONFIG.TAG_WEIGHTS, as rationals (humour weight is 0.5). -/
def interestWeight : ℚ := 3

def occasionWeight : ℚ := 2

def recipientWeight : ℚ := 2

def styleWeight : ℚ := 1

def humourWeight : ℚ := 1/2

/-- The `parsed` object built by `parseTags`: one list of values per
recognized tag category. -/
structure ParsedTags where
  interest : List String
  occasion : List String
  recipient : List String
  style : List String
  humour : List String
deriving DecidableEq, Repr

def emptyParsed : ParsedTags := ⟨[], [], [], [], []⟩

/-- `String.prototype.toLowerCase` (character-wise lowering). -/
def jsToLower (s : String) : String := String.mk (s.data.map Char.toLower)

/-- Drop leading and trailing whitespace (`String.prototype.trim`). -/
def trimChars (cs : List Char) : List Char :=
  ((cs.dropWhile Char.isWhitespace).reverse.dropWhile Char.isWhitespace).reverse

def jsTrim (s : String) : String := String.mk (trimChars s.data)

/-- `String.prototype.split(sep)` for a one-character separator: every
occurrence splits, empty pieces kept. -/
def splitCharsAux (sep : Char) : List Char → List Char → List (List Char)
  | [], acc => [acc.reverse]
  | c :: cs, acc =>
    if c = sep then acc.reverse :: splitCharsAux sep cs []
    else splitCharsAux sep cs (c :: acc)

def jsSplit (sep : Char) (s : String) : List String :=
  (splitCharsAux sep s.data []).map String.mk

/-- One iteration of the `tags.forEach` loop in `parseTags`: lowercase and
trim the tag, split on a colon, and when the split has exactly two parts
and the category is one of the five known keys, append the value. -/
def addTag (p : ParsedTags) (tag : String) : ParsedTags :=
  match jsSplit ':' (jsTrim (jsToLower tag)) with
  | [category, value] =>
    if category = "interest" then { p with interest := p.interest ++ [value] }
    else if category = "occasion" then { p with occasion := p.occasion ++ [value] }
    else if category = "recipient" then { p with recipient := p.recipient ++ [value] }
    else if category = "style" then { p with style := p.style ++ [value] }
    else if category = "humour" then { p with humour := p.humour ++ [value] }
    else p
  | _ => p

/-- `parseTags(tags)`. -/
def parseTags (tags : List String) : ParsedTags :=
  tags.foldl addTag emptyParsed

/-- `jaccardSimilarity(arr1, arr2)`: 0 when either array is empty,
otherwise intersection size over union size of the deduplicated sets. -/
def jaccardSimilarity (arr1 arr2 : List String) : ℚ :=
  if arr1 = [] ∨ arr2 = [] then 0
  else ((arr1.toFinset ∩ arr2.toFinset).card : ℚ) / ((arr1.toFinset ∪ arr2.toFinset).card : ℚ)

/-- `scoreProduct(productTags, anchorTags, mode)`.  Any mode other than
`"interest"` and `"occasion"` takes the `'similar'` (else) branch, as in
the source. -/
def scoreProduct (productTags anchorTags : ParsedTags) (mode : String) : ℚ :=
  if mode = "interest" then
    (if anchorTags.interest ≠ [] ∧ productTags.interest ≠ [] then
      jaccardSimilarity productTags.interest anchorTags.interest * interestWeight * 3
    else 0)
  else if mode = "occasion" then
    (if anchorTags.occasion ≠ [] ∧ productTags.occasion ≠ [] then
      jaccardSimilarity productTags.occasion anchorTags.occasion * occasionWeight * 3
    else 0)
  else
    (if anchorTags.interest ≠ [] ∧ productTags.interest ≠ [] then
      jaccardSimilarity productTags.interest anchorTags.interest * interestWeight
    else 0)
    + (if anchorTags.occasion ≠ [] ∧ productTags.occasion ≠ [] then
      jaccardSimilarity productTags.occasion anchorTags.occasion * occasionWeight
    else 0)
    + (if anchorTags.recipient ≠ [] ∧ productTags.recipient ≠ [] then
      jaccardSimilarity productTags.recipient anchorTags.recipient * recipientWeight
    else 0)
    + (if anchorTags.style ≠ [] ∧ productTags.style ≠ [] then
      jaccardSimilarity productTags.style anchorTags.style * styleWeight
    else 0)
    + (if anchorTags.humour ≠ [] ∧ productTags.humour ≠ [] then
      jaccardSimilarity productTags.humour anchorTags.humour * humourWeight
    else 0)

/-- The per-category summand of `'similar'` mode scoring: the guarded
`jaccardSimilarity(product, anchor) * weight` term. -/
def catContrib (product anchor : List String) (w : ℚ) : ℚ :=
  if anchor ≠ [] ∧ product ≠ [] then jaccardSimilarity product anchor * w else 0

/-- A CatalogItem as built by `ProductCatalog.load` (fields the engine
reads; `parsedTags` is set to `parseTags tags` by the load mapping). -/
structure Product where
  handle : String
  tags : List String
  parsedTags : ParsedTags
  available : Bool
deriving DecidableEq, Repr

/-- One entry of the score-sorted candidate list (`{ product, score }`). -/
structure Scored where
  product : Product
  score : ℚ
deriving DecidableEq, Repr

/-- The `for ... if (counts[v] >= cap) { flag = true; break; }` loops of
`diversify`: true when some value in the list has reached the cap. -/
def hasCapped (counts : String → Nat) (cap : Nat) : List String → Bool
  | [] => false
  | v :: vs => if cap ≤ counts v then true else hasCapped counts cap vs

/-- `skipInterest && skipStyle` for one candidate in `diversify`. -/
def skipCheck (ic sc : String → Nat) (c : Scored) : Bool :=
  hasCapped ic max_per_interest c.product.parsedTags.interest
    && hasCapped sc max_per_style c.product.parsedTags.style

/-- The count-update loops of `diversify`: increment the running count of
every listed value (`counts[v] = (counts[v] || 0) + 1`). -/
def bumpCounts (counts : String → Nat) : List String → (String → Nat)
  | [] => counts
  | v :: vs => bumpCounts (Function.update counts v (counts v + 1)) vs

/-- The main loop of `diversify`, with the mutable `interestCounts` /
`styleCounts` objects as accumulator arguments. -/
def diversifyAux (ic sc : String → Nat) : List Scored → List Scored
  | [] => []
  | item :: rest =>
    if skipCheck ic sc item then diversifyAux ic sc rest
    else
      item :: diversifyAux (bumpCounts ic item.product.parsedTags.interest)
        (bumpCounts sc item.product.parsedTags.style) rest

/-- `diversify(scoredProducts)`: counts start empty (every lookup 0). -/
def diversify (scoredProducts : List Scored) : List Scored :=
  diversifyAux (fun _ => 0) (fun _ => 0) scoredProducts

/-- Insert one scored item into a descending-sorted list, after every
element of greater-or-equal score: this is the stable descending sort the
source gets from `Array.prototype.sort((a, b) => b.score - a.score)`. -/
def insertDesc (x : Scored) : List Scored → List Scored
  | [] => [x]
  | y :: ys => if y.score ≤ x.score then x :: y :: ys else y :: insertDesc x ys

/-- Stable sort by descending score. -/
def sortDesc : List Scored → List Scored
  | [] => []
  | x :: xs => insertDesc x (sortDesc xs)

/-- `getFallbackRecommendations(limit)`: the bestseller fetch is an
explicit parameter (`none` = the fetch failed, caught and turned into
`[]`; `some ps` = the product list the response carried). -/
def getFallbackRecommendations (fetched : Option (List Product)) (limit : Nat) : List String :=
  match fetched with
  | none => []
  | some ps => (((ps.filter (fun p => p.available)).map (fun p => p.handle)).take limit)

/-- Scoring pipeline of `getRecommendations` once the anchor is resolved:
exclude the anchor handle, keep available products, score against the
anchor's parsed tags, keep positive scores, sort descending. -/
def scoredCandidates (catalog : List Product) (anchorHandle : String)
    (anchorTags : ParsedTags) (mode : String) : List Scored :=
  sortDesc ((((catalog.filter (fun p => p.handle ≠ anchorHandle)).filter
    (fun p => p.available)).map
      (fun p => ⟨p, scoreProduct p.parsedTags anchorTags mode⟩)).filter
        (fun item => 0 < item.score))

/-- The diversified top-N handle list (`recommended` before backfill). -/
def recommendedCore (catalog : List Product) (anchorHandle : String)
    (anchorTags : ParsedTags) (mode : String) : List String :=
  ((diversify (scoredCandidates catalog anchorHandle anchorTags mode)).take
    RAIL_SIZE).map (fun item => item.product.handle)

/-- `getRecommendations(anchorHandle, mode)` over a loaded catalog
snapshot.  `bestsellerFetch` is the data the fallback fetch would return
(`none` = that fetch failed).  When the anchor is not found the engine
returns the fallback list directly; otherwise it backfills a short result
with bestsellers not already present and truncates to RAIL_SIZE. -/
def getRecommendations (catalog : List Product) (bestsellerFetch : Option (List Product))
    (anchorHandle : String) (mode : String) : List String :=
  match catalog.find? (fun p => p.handle = anchorHandle) with
  | none => getFallbackRecommendations bestsellerFetch RAIL_SIZE
  | some anchorProduct =>
    let recommended := recommendedCore catalog anchorHandle anchorProduct.parsedTags mode
    let final :=
      if recommended.length < RAIL_SIZE then
        recommended ++ (getFallbackRecommendations bestsellerFetch
          (RAIL_SIZE - recommended.length)).filter (fun h => ¬ recommended.contains h)
      else recommended
    final.take RAIL_SIZE

/-- `ProductCatalog` instance state: `this.products`, `this.loading`,
`this.loaded`.  The constructor state is `⟨[], false, false⟩`. -/
structure CatalogState where
  products : List Product
  loading : Bool
  loaded : Bool
deriving DecidableEq, Repr

/-- `loadFromCache()`: the persisted sessionStorage entry is an explicit
parameter (`none` = absent or unparseable, treated as a miss).  An entry
older than CACHE_DURATION is discarded. -/
def loadFromCache (stored : Option (Nat × List Product)) (now : Nat) :
    Option (List Product) :=
  match stored with
  | none => none
  | some (ts, products) =>
    if CACHE_DURATION < now - ts then none else some products

/-- The raw product shape of a `/products.json` response entry (fields
the load mapping reads). -/
structure RawProduct where
  handle : String
  tags : List String
  available : Bool
deriving DecidableEq, Repr

/-- The `data.products.map(...)` step of `load()`. -/
def toCatalogItem (r : RawProduct) : Product :=
  ⟨r.handle, r.tags, parseTags r.tags, r.available⟩

/-- What a `load()` call does up to its first await point. -/
inductive LoadStart where
  /-- `this.loaded` was true: return `this.products` at once, no fetch. -/
  | ready (res : List Product)
  /-- `this.loading` was true: poll `this.loaded` every 100 ms and
  resolve with `this.products` once it is true; no state change, no
  fetch of our own. -/
  | wait
  /-- the persisted cache had a fresh entry: adopt it, no fetch. -/
  | cacheHit (res : List Product) (st : CatalogState)
  /-- cache miss: `this.loading := true` and the one network fetch is
  issued. -/
  | fetch (st : CatalogState)
deriving DecidableEq, Repr

/-- The synchronous prefix of `load()` (everything before the fetch
resolves). -/
def loadStart (st : CatalogState) (stored : Option (Nat × List Product))
    (now : Nat) : LoadStart :=
  if st.loaded then .ready st.products
  else if st.loading then .wait
  else
    match loadFromCache stored now with
    | some cached => .cacheHit cached ⟨cached, false, true⟩
    | none => .fetch { st with loading := true }

/-- Resolution of the fetch begun by `loadStart` (`.fetch` case): on
success the mapped items are stored and `loaded` becomes true; on failure
(`catch`) the call returns `[]` and only `loading` is cleared. -/
def loadFinish (st : CatalogState) (outcome : Option (List RawProduct)) :
    List Product × CatalogState :=
  match outcome with
  | some raws =>
    let items := raws.map toCatalogItem
    (items, ⟨items, false, true⟩)
  | none => ([], { st with loading := false })

/-- The condition the `setInterval` poll of a `.wait` caller checks:
its promise resolves exactly when `this.loaded` is true. -/
def waiterResolved (st : CatalogState) : Bool := st.loaded

/-- The value a resolved waiter receives. -/
def waiterResult (st : CatalogState) : List Product := st.products

/-- Number of items in a scored list carrying both the interest value `v`
and the style value `s`. -/
def pairCount (l : List Scored) (v s : String) : Nat :=
  l.countP (fun c => decide (v ∈ c.product.parsedTags.interest ∧ s ∈ c.product.parsedTags.style))

/-- All handles a fallback fetch can contribute. -/
def bestsellerHandles : Option (List Product) → List String
  | none => []
  | some ps => ps.map Product.handle

-- ============================================================================
-- Concrete example data (used by counterexamples and witnesses)
-- ============================================================================

/-- Anchor product of the worked counterexamples: one `interest:a` tag. -/
def prodA : Product := ⟨"A", ["interest:a"], parseTags ["interest:a"], true⟩

def prodB : Product := ⟨"B", ["interest:a"], parseTags ["interest:a"], true⟩

def prodC : Product := ⟨"C", ["interest:a"], parseTags ["interest:a"], true⟩

def prodD : Product := ⟨"D", ["interest:a"], parseTags ["interest:a"], true⟩

/-- Scored candidates for the diversity counterexample: two items with
`interest:a` and `style:s`, then one with `interest:a`, `interest:b`,
`style:s`. -/
def cex1 : Scored := ⟨⟨"p1", ["interest:a", "style:s"], parseTags ["interest:a", "style:s"], true⟩, 1⟩

def cex2 : Scored := ⟨⟨"p2", ["interest:a", "style:s"], parseTags ["interest:a", "style:s"], true⟩, 1⟩

def cex3 : Scored := ⟨⟨"p3", ["interest:a", "interest:b", "style:s"],
  parseTags ["interest:a", "interest:b", "style:s"], true⟩, 1⟩

/-- A candidate with no tags at all. -/
def cex0 : Scored := ⟨⟨"p0", [], parseTags [], true⟩, 1⟩

/-- A raw product for the concurrency run. -/
def rawW : RawProduct := ⟨"W", ["interest:frogs"], true⟩

-- ============================================================================
-- Helper lemmas
-- ============================================================================

lemma hasCapped_iff (c : String → Nat) (k : Nat) (l : List String) :
    hasCapped c k l = true ↔ ∃ v ∈ l, k ≤ c v := by
  induction l with
  | nil => simp [hasCapped]
  | cons v vs ih =>
    by_cases h : k ≤ c v <;> simp [hasCapped, h, ih]

lemma skipCheck_iff (ic sc : String → Nat) (c : Scored) :
    skipCheck ic sc c = true ↔
      (∃ v ∈ c.product.parsedTags.interest, max_per_interest ≤ ic v) ∧
      (∃ s ∈ c.product.parsedTags.style, max_per_style ≤ sc s) := by
  rw [skipCheck, Bool.and_eq_true, hasCapped_iff, hasCapped_iff]

lemma bumpCounts_apply (l : List String) (c : String → Nat) (v : String) :
    bumpCounts c l v = c v + l.count v := by
  induction l generalizing c with
  | nil => simp [bumpCounts]
  | cons u us ih =>
    rw [bumpCounts, ih]
    by_cases h : u = v
    · subst h
      simp [List.count_cons]
      omega
    · simp [Function.update_apply, h, List.count_cons, Ne.symm h]

lemma le_bumpCounts (c : String → Nat) (l : List String) (v : String) :
    c v ≤ bumpCounts c l v := by
  rw [bumpCounts_apply]; omega

lemma bumpCounts_of_mem (c : String → Nat) {l : List String} {v : String} (h : v ∈ l) :
    c v + 1 ≤ bumpCounts c l v := by
  rw [bumpCounts_apply]
  have := List.count_pos_iff.mpr h
  omega

lemma diversifyAux_sublist : ∀ (l : List Scored) (ic sc : String → Nat),
    (diversifyAux ic sc l).Sublist l := by
  intro l
  induction l with
  | nil => intro ic sc; simp [diversifyAux]
  | cons c rest ih =>
    intro ic sc
    rw [diversifyAux]
    by_cases h : skipCheck ic sc c = true
    · simpa [h] using (ih ic sc).cons c
    · simpa [h] using (ih _ _).cons₂ c

lemma mem_diversifyAux_of_no_interest :
    ∀ (l : List Scored) (ic sc : String → Nat) (c : Scored),
      c.product.parsedTags.interest = [] → c ∈ l → c ∈ diversifyAux ic sc l := by
  intro l
  induction l with
  | nil => intro ic sc c _ h; cases h
  | cons d rest ih =>
    intro ic sc c hempty hmem
    rw [diversifyAux]
    rcases List.mem_cons.mp hmem with heq | hmem'
    · subst heq
      have hs : skipCheck ic sc c = false := by
        rw [skipCheck, hempty]
        simp [hasCapped]
      simp [hs]
    · by_cases h : skipCheck ic sc d = true
      · simpa [h] using ih ic sc c hempty hmem'
      · simpa [h] using Or.inr (ih _ _ c hempty hmem')

lemma pairCount_cons (c : Scored) (l : List Scored) (v s : String) :
    pairCount (c :: l) v s =
      pairCount l v s +
        (if v ∈ c.product.parsedTags.interest ∧ s ∈ c.product.parsedTags.style then 1 else 0) := by
  rw [pairCount, pairCount, List.countP_cons]
  by_cases h : v ∈ c.product.parsedTags.interest ∧ s ∈ c.product.parsedTags.style <;> simp [h]

lemma pairCount_diversifyAux_le (v s : String) :
    ∀ (l : List Scored) (ic sc : String → Nat),
      pairCount (diversifyAux ic sc l) v s ≤ 2 - min (ic v) (sc s) := by
  intro l
  induction l with
  | nil => intro ic sc; simp [diversifyAux, pairCount]
  | cons c rest ih =>
    intro ic sc
    rw [diversifyAux]
    by_cases hskip : skipCheck ic sc c = true
    · simpa [hskip] using ih ic sc
    · simp only [hskip, Bool.false_eq_true, if_false, pairCount_cons]
      by_cases hc : v ∈ c.product.parsedTags.interest ∧ s ∈ c.product.parsedTags.style
      · have hn : ¬ (max_per_interest ≤ ic v ∧ max_per_style ≤ sc s) := by
          intro hcap
          exact hskip ((skipCheck_iff ic sc c).mpr
            ⟨⟨v, hc.1, hcap.1⟩, ⟨s, hc.2, hcap.2⟩⟩)
        have h1 := bumpCounts_of_mem ic hc.1
        have h2 := bumpCounts_of_mem sc hc.2
        have hrec := ih (bumpCounts ic c.product.parsedTags.interest)
          (bumpCounts sc c.product.parsedTags.style)
        rw [max_per_interest] at hn
        rw [max_per_style] at hn
        rw [if_pos hc]
        omega
      · have h1 := le_bumpCounts ic c.product.parsedTags.interest v
        have h2 := le_bumpCounts sc c.product.parsedTags.style s
        have hrec := ih (bumpCounts ic c.product.parsedTags.interest)
          (bumpCounts sc c.product.parsedTags.style)
        rw [if_neg hc]
        omega

lemma mem_insertDesc {x y : Scored} {l : List Scored} :
    x ∈ insertDesc y l ↔ x = y ∨ x ∈ l := by
  induction l with
  | nil => simp [insertDesc]
  | cons z zs ih =>
    rw [insertDesc]
    by_cases h : z.score ≤ y.score
    · simp [h]
    · rw [if_neg h]
      simp only [List.mem_cons, ih]
      tauto

lemma mem_sortDesc {x : Scored} : ∀ {l : List Scored}, x ∈ sortDesc l ↔ x ∈ l := by
  intro l
  induction l with
  | nil => simp [sortDesc]
  | cons y ys ih =>
    rw [sortDesc, mem_insertDesc]
    simp [ih]

lemma mem_getFallbackRecommendations {f : Option (List Product)} {n : Nat} {h : String}
    (hmem : h ∈ getFallbackRecommendations f n) : h ∈ bestsellerHandles f := by
  cases f with
  | none => simp [getFallbackRecommendations] at hmem
  | some ps =>
    rw [getFallbackRecommendations] at hmem
    have h1 := List.mem_of_mem_take hmem
    obtain ⟨p, hp, rfl⟩ := List.mem_map.mp h1
    exact List.mem_map.mpr ⟨p, List.mem_of_mem_filter hp, rfl⟩

lemma not_mem_recommendedCore (catalog : List Product) (anchorHandle : String)
    (tags : ParsedTags) (mode : String) :
    anchorHandle ∉ recommendedCore catalog anchorHandle tags mode := by
  intro hmem
  rw [recommendedCore] at hmem
  obtain ⟨item, hitem, heq⟩ := List.mem_map.mp hmem
  have h1 : item ∈ diversify (scoredCandidates catalog anchorHandle tags mode) :=
    List.mem_of_mem_take hitem
  have h2 : item ∈ scoredCandidates catalog anchorHandle tags mode :=
    (diversifyAux_sublist _ _ _).subset h1
  rw [scoredCandidates, mem_sortDesc] at h2
  have h3 := List.mem_of_mem_filter h2
  obtain ⟨p, hp, rfl⟩ := List.mem_map.mp h3
  have h4 := List.mem_of_mem_filter hp
  have h5 := List.of_mem_filter h4
  simp only [decide_eq_true_eq] at h5
  exact h5 heq

lemma recommendedCore_length_le (catalog : List Product) (anchorHandle : String)
    (tags : ParsedTags) (mode : String) :
    (recommendedCore catalog anchorHandle tags mode).length ≤ RAIL_SIZE := by
  rw [recommendedCore, List.length_map]
  exact List.length_take_le _ _

lemma jaccard_comm (l1 l2 : List String) :
    jaccardSimilarity l1 l2 = jaccardSimilarity l2 l1 := by
  rw [jaccardSimilarity, jaccardSimilarity]
  by_cases h1 : l1 = [] <;> by_cases h2 : l2 = [] <;> simp [h1, h2]
  rw [Finset.inter_comm, Finset.union_comm]

lemma jaccard_aa : jaccardSimilarity ["a"] ["a"] = 1 := by
  rw [jaccardSimilarity, if_neg (by simp)]
  rw [show ((["a"] : List String).toFinset ∩ ["a"].toFinset).card = 1 from by decide]
  rw [show ((["a"] : List String).toFinset ∪ ["a"].toFinset).card = 1 from by decide]
  norm_num

lemma score_ex :
    scoreProduct (parseTags ["interest:a"]) (parseTags ["interest:a"]) "similar" = 3 := by
  rw [show parseTags ["interest:a"] = ⟨["a"], [], [], [], []⟩ from by decide]
  rw [scoreProduct, if_neg (by decide : ¬ ("similar" = "interest")),
    if_neg (by decide : ¬ ("similar" = "occasion"))]
  norm_num [jaccard_aa, interestWeight]

lemma scored_ex :
    scoredCandidates [prodA, prodB, prodC, prodD] "A" prodA.parsedTags "similar" =
      [⟨prodB, 3⟩, ⟨prodC, 3⟩, ⟨prodD, 3⟩] := by
  rw [scoredCandidates]
  show sortDesc (List.filter (fun item => decide (0 < item.score))
    [⟨prodB, scoreProduct prodB.parsedTags prodA.parsedTags "similar"⟩,
     ⟨prodC, scoreProduct prodC.parsedTags prodA.parsedTags "similar"⟩,
     ⟨prodD, scoreProduct prodD.parsedTags prodA.parsedTags "similar"⟩]) =
    [⟨prodB, 3⟩, ⟨prodC, 3⟩, ⟨prodD, 3⟩]
  have hsB : scoreProduct prodB.parsedTags prodA.parsedTags "similar" = 3 := score_ex
  have hsC : scoreProduct prodC.parsedTags prodA.parsedTags "similar" = 3 := score_ex
  have hsD : scoreProduct prodD.parsedTags prodA.parsedTags "similar" = 3 := score_ex
  rw [hsB, hsC, hsD]
  have hfilter : List.filter (fun item => decide (0 < item.score))
      [(⟨prodB, 3⟩ : Scored), ⟨prodC, 3⟩, ⟨prodD, 3⟩] =
      [⟨prodB, 3⟩, ⟨prodC, 3⟩, ⟨prodD, 3⟩] := by
    simp only [List.filter_cons, List.filter_nil, decide_eq_true_eq]
    norm_num
  rw [hfilter]
  simp only [sortDesc, insertDesc]
  norm_num

-- ============================================================================
-- Claim theorems
-- ============================================================================

/-- C8: the output of `diversify` is a subsequence of its input: every
output element occurs in the input, relative order is preserved exactly,
and no element is duplicated or introduced. -/
theorem diversify_sublist (l : List Scored) : (diversify l).Sublist l :=
  diversifyAux_sublist l _ _

/-- C10: `scoreProduct` is symmetric in its two tag maps for every mode,
because each per-category guard checks both sides' emptiness and Jaccard
similarity is symmetric. -/
theorem scoreProduct_symm (p a : ParsedTags) (mode : String) :
    scoreProduct p a mode = scoreProduct a p mode := by
  have hguard : ∀ (x y : List String) (w : ℚ),
      (if y ≠ [] ∧ x ≠ [] then jaccardSimilarity x y * w else 0) =
      (if x ≠ [] ∧ y ≠ [] then jaccardSimilarity y x * w else 0) := by
    intro x y w
    by_cases h1 : x = [] <;> by_cases h2 : y = [] <;>
      simp [h1, h2, jaccard_comm x y]
  by_cases hm1 : mode = "interest"
  · rw [scoreProduct, scoreProduct, if_pos hm1, if_pos hm1]
    by_cases hg1 : a.interest = [] <;> by_cases hg2 : p.interest = [] <;>
      simp [hg1, hg2, jaccard_comm p.interest a.interest]
  by_cases hm2 : mode = "occasion"
  · rw [scoreProduct, scoreProduct, if_neg hm1, if_neg hm1, if_pos hm2, if_pos hm2]
    by_cases hg1 : a.occasion = [] <;> by_cases hg2 : p.occasion = [] <;>
      simp [hg1, hg2, jaccard_comm p.occasion a.occasion]
  rw [scoreProduct, scoreProduct, if_neg hm1, if_neg hm1, if_neg hm2, if_neg hm2,
    hguard p.interest a.interest, hguard p.occasion a.occasion,
    hguard p.recipient a.recipient, hguard p.style a.style,
    hguard p.humour a.humour]

/-- C6: for every pair of parsed tag maps, `'interest'` mode scoring is
exactly 3 times the interest-category contribution of `'similar'` mode
(`catContrib` with the interest base weight), all other categories
contribute nothing in `'interest'` mode (the score only depends on the
interest lists), and symmetrically for `'occasion'` mode. -/
theorem mode_amplification (p a : ParsedTags) :
    scoreProduct p a "interest" = 3 * catContrib p.interest a.interest interestWeight ∧
    scoreProduct p a "occasion" = 3 * catContrib p.occasion a.occasion occasionWeight ∧
    scoreProduct p a "similar" =
      catContrib p.interest a.interest interestWeight +
      catContrib p.occasion a.occasion occasionWeight +
      catContrib p.recipient a.recipient recipientWeight +
      catContrib p.style a.style styleWeight +
      catContrib p.humour a.humour humourWeight ∧
    scoreProduct p a "interest" =
      scoreProduct ⟨p.interest, [], [], [], []⟩ ⟨a.interest, [], [], [], []⟩ "interest" ∧
    scoreProduct p a "occasion" =
      scoreProduct ⟨[], p.occasion, [], [], []⟩ ⟨[], a.occasion, [], [], []⟩ "occasion" := by
  refine ⟨?_, ?_, ?_, rfl, rfl⟩
  · rw [scoreProduct, if_pos rfl, catContrib]
    split_ifs <;> ring
  · rw [scoreProduct, if_neg (by decide : ¬ ("occasion" = "interest")), if_pos rfl, catContrib]
    split_ifs <;> ring
  · rw [scoreProduct, if_neg (by decide : ¬ ("similar" = "interest")),
      if_neg (by decide : ¬ ("similar" = "occasion"))]
    simp only [catContrib]

/-- C1 counterexample: `cex3` carries the interest value `"b"`, which no
already-selected item carries (so the cap of 2 is not reached for `"b"`),
yet `diversify` skips it — refuting the claim that a candidate is skipped
only when *every* one of its interest values is capped and that a
candidate with at least one uncapped interest value is accepted. -/
theorem diversify_skip_forall_counterexample :
    diversify [cex1, cex2, cex3] = [cex1, cex2] ∧
    "b" ∈ cex3.product.parsedTags.interest ∧
    [cex1, cex2].countP (fun c => decide ("b" ∈ c.product.parsedTags.interest)) = 0 := by
  decide

/-- C1 (amended): a score-sorted candidate is skipped if and only if AT
LEAST ONE of its interest values has reached the cap of 2 among
already-selected items AND AT LEAST ONE of its style values has reached
its cap; an accepted candidate increments the running count of every one
of its interest and style values (once per occurrence). -/
theorem diversify_skip_exists_characterization (ic sc : String → Nat) (c : Scored)
    (rest : List Scored) :
    (diversifyAux ic sc (c :: rest) =
      if (∃ v ∈ c.product.parsedTags.interest, max_per_interest ≤ ic v) ∧
         (∃ s ∈ c.product.parsedTags.style, max_per_style ≤ sc s)
      then diversifyAux ic sc rest
      else c :: diversifyAux (bumpCounts ic c.product.parsedTags.interest)
        (bumpCounts sc c.product.parsedTags.style) rest) ∧
    (∀ v, bumpCounts ic c.product.parsedTags.interest v
        = ic v + c.product.parsedTags.interest.count v) ∧
    (∀ s, bumpCounts sc c.product.parsedTags.style s
        = sc s + c.product.parsedTags.style.count s) := by
  refine ⟨?_, fun v => bumpCounts_apply _ _ _, fun s => bumpCounts_apply _ _ _⟩
  by_cases hP : (∃ v ∈ c.product.parsedTags.interest, max_per_interest ≤ ic v) ∧
      (∃ s ∈ c.product.parsedTags.style, max_per_style ≤ sc s)
  · have hs : skipCheck ic sc c = true := (skipCheck_iff ic sc c).mpr hP
    rw [diversifyAux, if_pos hs, if_pos hP]
  · have hs : ¬ skipCheck ic sc c = true := fun h => hP ((skipCheck_iff ic sc c).mp h)
    rw [diversifyAux, if_neg hs, if_neg hP]

/-- C9: a candidate with an empty interest list is never skipped by the
diversity filter (whatever the running counts), likewise for an empty
style list; a skipped candidate must have a capped interest value AND a
capped style value; and a candidate with neither interest nor style
values always survives into the output. -/
theorem empty_tags_never_skipped (ic sc : String → Nat) (c : Scored) (l : List Scored) :
    (c.product.parsedTags.interest = [] → skipCheck ic sc c = false) ∧
    (c.product.parsedTags.style = [] → skipCheck ic sc c = false) ∧
    (skipCheck ic sc c = true →
      (∃ v ∈ c.product.parsedTags.interest, max_per_interest ≤ ic v) ∧
      (∃ s ∈ c.product.parsedTags.style, max_per_style ≤ sc s)) ∧
    (c.product.parsedTags.interest = [] → c ∈ l → c ∈ diversifyAux ic sc l) := by
  refine ⟨?_, ?_, fun h => (skipCheck_iff ic sc c).mp h,
    fun h hm => mem_diversifyAux_of_no_interest l ic sc c h hm⟩
  · intro h
    rw [skipCheck, h]
    simp [hasCapped]
  · intro h
    rw [skipCheck, h]
    simp [hasCapped]

/-- Witness for C9: the tagless candidate `cex0` is not skipped even with
running counts far past the cap, and survives diversity filtering. -/
theorem empty_tags_never_skipped_witness :
    skipCheck (fun _ => 99) (fun _ => 99) cex0 = false ∧
    cex0 ∈ diversifyAux (fun _ => 99) (fun _ => 99) [cex1, cex0] :=
  ⟨(empty_tags_never_skipped (fun _ => 99) (fun _ => 99) cex0 [cex1, cex0]).1 (by decide),
   (empty_tags_never_skipped (fun _ => 99) (fun _ => 99) cex0 [cex1, cex0]).2.2.2
     (by decide) (by decide)⟩

/-- C2 (amended): what the diversity pass does bound is the pair of
dimensions together — no (interest value, style value) pair is carried by
more than 2 items of `diversify`'s output.  (The per-interest-value cap
of 2 alone does not hold; see the counterexample.) -/
theorem diversify_pair_cap (l : List Scored) (v s : String) :
    pairCount (diversify l) v s ≤ 2 := by
  have h := pairCount_diversifyAux_le v s l (fun _ => 0) (fun _ => 0)
  simpa [diversify] using h

/-- C2 counterexample: anchor `"A"` and three candidates `B`, `C`, `D`
all tagged `interest:a` and nothing else.  All three are returned (their
style lists are empty, so the diversity skip never fires), so the
interest value `"a"` appears across 3 > 2 distinct returned items even
though 3 ≥ 2 such items existed in the eligible pool. -/
theorem interest_cap_counterexample :
    getRecommendations [prodA, prodB, prodC, prodD] none "A" "similar" = ["B", "C", "D"] ∧
    [prodB, prodC, prodD].countP (fun p => decide ("a" ∈ p.parsedTags.interest)) = 3 := by
  constructor
  · rw [getRecommendations,
      show [prodA, prodB, prodC, prodD].find? (fun p => p.handle = "A") = some prodA from
        by decide]
    simp only
    have hcore : recommendedCore [prodA, prodB, prodC, prodD] "A" prodA.parsedTags "similar"
        = ["B", "C", "D"] := by
      rw [recommendedCore, scored_ex]
      decide
    rw [hcore]
    decide
  · decide

/-- C3 counterexample: when the anchor `"A"` is not in the catalog, the
result comes entirely from the bestseller fallback, which does not filter
out the anchor handle — so the returned list contains `"A"` itself. -/
theorem anchor_exclusion_counterexample :
    getRecommendations [] (some [prodA]) "A" "similar" = ["A"] := by
  decide

/-- C3 (amended): the anchor's handle never appears in the scored,
diversified portion of a recommendation result; it can only re-enter
through the bestseller fallback, so whenever the fallback response does
not carry the anchor's handle the whole result excludes it. -/
theorem anchor_excluded_outside_fallback (catalog : List Product)
    (bf : Option (List Product)) (anchorHandle mode : String)
    (hbf : anchorHandle ∉ bestsellerHandles bf) :
    anchorHandle ∉ getRecommendations catalog bf anchorHandle mode := by
  intro hmem
  rw [getRecommendations] at hmem
  cases hfind : catalog.find? (fun p => p.handle = anchorHandle) with
  | none =>
    rw [hfind] at hmem
    exact hbf (mem_getFallbackRecommendations hmem)
  | some anchor =>
    rw [hfind] at hmem
    simp only at hmem
    have h1 := List.mem_of_mem_take hmem
    by_cases hlen : (recommendedCore catalog anchorHandle anchor.parsedTags mode).length
        < RAIL_SIZE
    · rw [if_pos hlen] at h1
      rcases List.mem_append.mp h1 with h2 | h2
      · exact not_mem_recommendedCore _ _ _ _ h2
      · exact hbf (mem_getFallbackRecommendations (List.mem_of_mem_filter h2))
    · rw [if_neg hlen] at h1
      exact not_mem_recommendedCore _ _ _ _ h1

/-- Witness for C3 (amended): with a failed (hence anchor-free) fallback
fetch, the anchor `"A"` is absent from its own recommendations. -/
theorem anchor_excluded_outside_fallback_witness :
    "A" ∉ getRecommendations [] none "A" "similar" :=
  anchor_excluded_outside_fallback [] none "A" "similar" (by decide)

/-- C4 counterexample: a persisted snapshot captured at time 0 is still
served by `loadFromCache` at time exactly `T + TTL` (the source tests
`age > CACHE_DURATION`, not `≥`), and a `Ready` instance serves its
in-memory snapshot at *any* later time — here age `2 × TTL` — with no
refetch, contradicting the claim that every call at time `≥ T + TTL`
triggers a refetch. -/
theorem ttl_boundary_counterexample :
    loadFromCache (some (0, [prodA])) CACHE_DURATION = some [prodA] ∧
    loadStart ⟨[prodA], false, true⟩ none (CACHE_DURATION + CACHE_DURATION) =
      .ready [prodA] := by
  decide

/-- C4 (amended): the persisted cache entry captured at `ts` is usable
for a `load()` at `now` exactly when `now ≤ ts + TTL` (unusable only
STRICTLY after `ts + TTL`), and the in-memory snapshot of a loaded
(`Ready`) instance is returned at every time without any expiry check. -/
theorem cache_expiry_characterization (ts now : Nat) (ps products : List Product)
    (loading : Bool) (stored : Option (Nat × List Product)) :
    loadFromCache (some (ts, ps)) now =
      (if ts + CACHE_DURATION < now then none else some ps) ∧
    loadStart ⟨products, loading, true⟩ stored now = .ready products := by
  constructor
  · rw [loadFromCache]
    by_cases h : ts + CACHE_DURATION < now
    · rw [if_pos h, if_pos (by omega : CACHE_DURATION < now - ts)]
    · rw [if_neg h, if_neg (by omega : ¬ CACHE_DURATION < now - ts)]
  · rw [loadStart]
    simp

/-- C5: two `load()` calls on an empty cache before the fetch resolves.
The first caller transitions `⟨[], false, false⟩` to the fetching state
`⟨[], true, false⟩` and issues the only fetch; the second caller sees
`loading = true` and waits, issuing none.  If the fetch succeeds both
callers observe the same mapped product list (the waiter's poll condition
`loaded` holds).  But if the fetch fails, the initiating caller gets `[]`
while the final state has `loaded = false` — the waiter's poll condition
never becomes true and its promise never resolves, contradicting the
claim that on failure all callers receive the empty-snapshot outcome
rather than waiting forever. -/
theorem concurrent_load_failure_hangs_waiter :
    loadStart ⟨[], false, false⟩ none 0 = .fetch ⟨[], true, false⟩ ∧
    loadStart ⟨[], true, false⟩ none 0 = .wait ∧
    loadFinish ⟨[], true, false⟩ (some [rawW]) =
      ([toCatalogItem rawW], ⟨[toCatalogItem rawW], false, true⟩) ∧
    waiterResolved ⟨[toCatalogItem rawW], false, true⟩ = true ∧
    waiterResult ⟨[toCatalogItem rawW], false, true⟩ = [toCatalogItem rawW] ∧
    loadFinish ⟨[], true, false⟩ none = ([], ⟨[], false, false⟩) ∧
    waiterResolved ⟨[], false, false⟩ = false := by
  decide

/-- C7: on catalog fetch failure `load()` returns the empty list and the
instance is back in the `Empty` state (`loading = false`, `loaded =
false`), raising nothing; a failed bestseller fetch contributes `[]`; and
`getRecommendations` with a failed fallback fetch still returns what it
already had — the diversified scored portion when the anchor resolves,
and `[]` when the catalog is empty. -/
theorem fetch_failure_degrades (stored : Option (Nat × List Product)) (now : Nat)
    (catalog : List Product) (anchorHandle mode : String) (anchor : Product)
    (hmiss : loadFromCache stored now = none)
    (hfind : catalog.find? (fun p => p.handle = anchorHandle) = some anchor) :
    loadStart ⟨[], false, false⟩ stored now = .fetch ⟨[], true, false⟩ ∧
    loadFinish ⟨[], true, false⟩ none = ([], ⟨[], false, false⟩) ∧
    (∀ n, getFallbackRecommendations none n = []) ∧
    getRecommendations [] none anchorHandle mode = [] ∧
    getRecommendations catalog none anchorHandle mode =
      recommendedCore catalog anchorHandle anchor.parsedTags mode := by
  refine ⟨?_, rfl, fun n => rfl, rfl, ?_⟩
  · rw [loadStart]
    simp [hmiss]
  · rw [getRecommendations, hfind]
    simp only
    have hlen := recommendedCore_length_le catalog anchorHandle anchor.parsedTags mode
    by_cases h : (recommendedCore catalog anchorHandle anchor.parsedTags mode).length
        < RAIL_SIZE
    · rw [if_pos h]
      simp only [getFallbackRecommendations, List.filter_nil, List.append_nil]
      exact List.take_of_length_le hlen
    · rw [if_neg h]
      exact List.take_of_length_le hlen

/-- Witness for C7: concrete failed-fetch run on an empty instance and a
two-product catalog with anchor `"A"`. -/
theorem fetch_failure_degrades_witness :
    loadStart ⟨[], false, false⟩ none 0 = .fetch ⟨[], true, false⟩ ∧
    loadFinish ⟨[], true, false⟩ none = ([], ⟨[], false, false⟩) ∧
    (∀ n, getFallbackRecommendations none n = []) ∧
    getRecommendations [] none "A" "similar" = [] ∧
    getRecommendations [prodA, prodB] none "A" "similar" =
      recommendedCore [prodA, prodB] "A" prodA.parsedTags "similar" :=
  fetch_failure_degrades none 0 [prodA, prodB] "A" "similar" prodA rfl (by decide)

end CCRecs
